import Mathlib

/-!
Verification development for the guild-scoped command-configuration and
synchronization subsystem together with the TTL cache service.

The Python source is shallowly embedded: JSON documents become an inductive
`Json` type whose objects are ordered association lists (Python dicts preserve
insertion order), the backing configuration file becomes a `FileContent` value
(missing, unparseable, or holding a parsed document), exceptions become an
explicit `PyError` sum carried in `Except` or in an `Option PyError` component
of the result, and timestamps become integers.
-/

/-- A parsed JSON document.  Objects keep their entries in insertion order,
mirroring Python dict semantics. -/
inductive Json where
  | null
  | bool (b : Bool)
  | num (n : Int)
  | str (s : String)
  | arr (elems : List Json)
  | obj (entries : List (String × Json))
deriving Repr

/-- Python exception classes that the embedded fragment can raise. -/
inductive PyError where
  | configurationError (msg : String)
  | fileNotFoundError
  | typeError
  | attributeError
  | keyError
deriving Repr, DecidableEq

/-- State of a file on disk: absent, present but not valid JSON, or present
with a parsed JSON document. -/
inductive FileContent where
  | missing
  | garbage
  | stored (j : Json)
deriving Repr

/-- Lookup in an ordered association list (Python `dict.get` without default). -/
def alistLookup {α : Type} (entries : List (String × α)) (k : String) : Option α :=
  match entries with
  | [] => none
  | (k0, v) :: rest => if k0 = k then some v else alistLookup rest k

/-- Assignment `d[k] = v` on an ordered association list: an existing key keeps
its position, a new key is appended at the end (Python dict semantics). -/
def alistSet {α : Type} (entries : List (String × α)) (k : String) (v : α) :
    List (String × α) :=
  match entries with
  | [] => [(k, v)]
  | (k0, v0) :: rest =>
      if k0 = k then (k0, v) :: rest else (k0, v0) :: alistSet rest k v

/-- Deletion `del d[k]` on an ordered association list. -/
def alistErase {α : Type} (entries : List (String × α)) (k : String) :
    List (String × α) :=
  match entries with
  | [] => []
  | (k0, v0) :: rest =>
      if k0 = k then rest else (k0, v0) :: alistErase rest k

/-- Substring test, as Python `str.__contains__`. -/
def strContainsSub (s pat : String) : Bool :=
  (List.range (s.length + 1)).any (fun i => pat.isPrefixOf (s.drop i))

/-- Python `==` between a JSON value and a string: only a string compares
equal to a string. -/
def Json.eqStr : Json → String → Bool
  | .str s, t => s = t
  | _, _ => false

/-- Python `isinstance(x, list)`. -/
def Json.isArr : Json → Bool
  | .arr _ => true
  | _ => false

/-- Python `isinstance(x, dict)`. -/
def Json.isObj : Json → Bool
  | .obj _ => true
  | _ => false

/-- Python membership test `k in x` on a parsed JSON value: key membership for
dicts, element membership for lists, substring test for strings, and a
`TypeError` for the remaining non-container values. -/
def Json.hasMember : Json → String → Except PyError Bool
  | .obj entries, k => .ok (alistLookup entries k).isSome
  | .arr elems, k => .ok (elems.any (fun e => e.eqStr k))
  | .str s, k => .ok (strContainsSub s k)
  | _, _ => .error .typeError

/-- Python `x.get(k, default)`: only dicts have `.get`; everything else raises
`AttributeError`. -/
def Json.dictGet : Json → String → Json → Except PyError Json
  | .obj entries, k, dflt => .ok ((alistLookup entries k).getD dflt)
  | _, _, _ => .error .attributeError

/-- Python subscript read `x[k]` with a string key. -/
def Json.getItem : Json → String → Except PyError Json
  | .obj entries, k =>
      match alistLookup entries k with
      | some v => .ok v
      | none => .error .keyError
  | _, _ => .error .typeError

/-- Python subscript assignment `x[k] = v` with a string key. -/
def Json.setItem : Json → String → Json → Except PyError Json
  | .obj entries, k, v => .ok (.obj (alistSet entries k v))
  | _, _, _ => .error .typeError

/-! ## CommandConfigRepository (src/utils/config.py) -/

/-- Observable state of a `CommandConfigRepository`: the primary config file
and the sequence of backup snapshots written so far (in creation order). -/
structure RepoState where
  file : FileContent
  backups : List Json
deriving Repr

namespace CommandConfigRepository

/-- Source `_read_config`: `json.load` of the primary file; a missing or unparseable
file raises `ConfigurationError` (the source wraps `FileNotFoundError`,
`JSONDecodeError` and `TypeError` into it). -/
def _read_config : FileContent → Except PyError Json
  | .missing => .error (.configurationError "Failed to read or parse config")
  | .garbage => .error (.configurationError "Failed to read or parse config")
  | .stored j => .ok j

/-- Source `get_all` simply delegates to `_read_config`. -/
def get_all (file : FileContent) : Except PyError Json :=
  _read_config file

/-- Source `get_commands_for_guild`: `config.get("guilds", {}).get(guild_id, [])`. -/
def get_commands_for_guild (file : FileContent) (guild_id : String) :
    Except PyError Json := do
  let config ← get_all file
  let guilds ← config.dictGet "guilds" (Json.obj [])
  guilds.dictGet guild_id (Json.arr [])

/-- Source `backup`: reads the current config and, on success, writes one timestamped
snapshot; every exception inside is caught and logged, so the function is
total on the state and never raises. -/
def backup (s : RepoState) : RepoState :=
  match s.file with
  | .stored j => { s with backups := s.backups ++ [j] }
  | _ => s

/-- Source `_write_config`: `json.dump` of the document into the primary file. -/
def _write_config (s : RepoState) (j : Json) : RepoState :=
  { s with file := .stored j }

/-- The pure part of `update_commands_for_guild` after the config has been
loaded: `if "guilds" not in config: config["guilds"] = {}` followed by
`config["guilds"][guild_id] = commands`. -/
def updateCore (config : Json) (guild_id : String) (commands : Json) :
    Except PyError Json := do
  let hasG ← config.hasMember "guilds"
  let config2 ← if hasG then pure config else config.setItem "guilds" (Json.obj [])
  let g ← config2.getItem "guilds"
  let g2 ← g.setItem guild_id commands
  config2.setItem "guilds" g2

/-- Source `update_commands_for_guild`: validates that `commands` is a list, takes a
backup, loads the config, installs the new per-guild list and writes the file
back.  The result pairs the post-call state (side effects persist even when an
exception escapes) with the exception, if any. -/
def update_commands_for_guild (s : RepoState) (guild_id : String)
    (commands : Json) : RepoState × Option PyError :=
  if commands.isArr then
    let s1 := backup s
    match _read_config s1.file with
    | .error e => (s1, some e)
    | .ok config =>
        match updateCore config guild_id commands with
        | .error e => (s1, some e)
        | .ok config2 => (_write_config s1 config2, none)
  else
    (s, some (.configurationError "Invalid commands list: must be a list."))

/-- Source `restore`: raises `FileNotFoundError` when the backup file is absent;
otherwise parses it, validates the `guilds` shape, and on success overwrites
the primary config.  `JSONDecodeError`, `ConfigurationError` and `IOError`
are caught and turned into `False`; other exceptions escape. -/
def restore (s : RepoState) (backupFile : FileContent) :
    RepoState × Except PyError Bool :=
  match backupFile with
  | .missing => (s, .error .fileNotFoundError)
  | .garbage => (s, .ok false)
  | .stored config =>
      match config.hasMember "guilds" with
      | .error e => (s, .error e)
      | .ok hasG =>
          if hasG then
            match config.dictGet "guilds" Json.null with
            | .error e => (s, .error e)
            | .ok g =>
                if g.isObj then (_write_config s config, .ok true)
                else (s, .ok false)
          else (s, .ok false)

end CommandConfigRepository

/-! ## CacheService (src/services/cache_service.py)

Timestamps are integers; `datetime.now()` becomes an explicit `now` argument
at each call.  The cache map is an ordered association list (Python dict). -/

/-- One cache entry: the stored value and the absolute expiry timestamp. -/
structure CacheEntry where
  value : Json
  expires : Int
deriving Repr

namespace CacheService

/-- Source `get`: returns the value when `now < expires`; when `now >= expires` the
entry is deleted and `None` is returned; a missing key returns `None`.  The
result pairs the returned value with the post-call cache state. -/
def get (cache : List (String × CacheEntry)) (key : String) (now : Int) :
    Option Json × List (String × CacheEntry) :=
  match alistLookup cache key with
  | none => (none, cache)
  | some entry =>
      if entry.expires ≤ now then (none, alistErase cache key)
      else (some entry.value, cache)

/-- Source `set`: inserts or overwrites the entry with
`expires = now + timedelta(seconds=ttl)`. -/
def set (cache : List (String × CacheEntry)) (key : String) (value : Json)
    (ttl : Int) (now : Int) : List (String × CacheEntry) :=
  alistSet cache key { value := value, expires := now + ttl }

/-- Source `invalidate`: deletes the entry; a missing key is a no-op
(`KeyError` is caught). -/
def invalidate (cache : List (String × CacheEntry)) (key : String) :
    List (String × CacheEntry) :=
  alistErase cache key

end CacheService

/-! ## Environment-variable validation (src/utils/config.py) -/

/-- The truthiness test `not os.getenv(var)`: an unset variable
(`os.getenv` returns `None`) and a variable set to the empty string are both
falsy, hence both counted as missing. -/
def envMissing (env : String → Option String) (v : String) : Bool :=
  match env v with
  | none => true
  | some s => s.isEmpty

/-- Source `load_and_validate_env_vars`: collects every required variable whose value
is falsy and raises one `ConfigurationError` naming all of them, joined with
`", "`; succeeds when none is missing. -/
def load_and_validate_env_vars (env : String → Option String)
    (required_vars : List String) : Except String Unit :=
  let missing_vars := required_vars.filter (envMissing env)
  if missing_vars.isEmpty then .ok ()
  else
    .error ("Missing required environment variables: "
      ++ String.intercalate ", " missing_vars)

/-- Source `ConfigManager._setup_env_vars` fixes the required list. -/
def ConfigManager.required_env_vars : List String :=
  ["APPROVED_GUILDS", "TOKEN", "DB"]

/-- Source `ConfigManager._setup_env_vars`: validation at facade construction. -/
def ConfigManager._setup_env_vars (env : String → Option String) :
    Except String Unit :=
  load_and_validate_env_vars env ConfigManager.required_env_vars

/-! ## Guild command synchronizer (src/core/application.py)

The external registry (the bot's command tree) is a collaborator; its
behaviour is a parameter of the model.  `lookup` is `bot.get_guild`,
`guildSync` is the outcome of `_sync_guild_commands` on a resolved guild
(`none` = success, `some msg` = exception raised while contacting the
registry), `globalSync` is the outcome of the final global clear-and-sync. -/

structure RegistryModel where
  lookup : Int → Option Int
  guildSync : Int → Option String
  globalSync : Option String

/-- Observable actions of a synchronization run, in order. -/
inductive SyncEvent where
  | guildNotFound (gid : Int)
  | guildSynced (gid : Int)
  | globalCleared
deriving Repr, DecidableEq

namespace Application

/-- The `for guild_id in approved_guild_ids` loop of `_setup_commands`:
an unresolvable guild id logs a warning and `continue`s; `_sync_guild_commands`
is awaited with no surrounding `try`, so an exception raised there aborts the
loop (and the whole coroutine) immediately. -/
def _setup_commands_loop (reg : RegistryModel) :
    List Int → List SyncEvent × Option String
  | [] => ([], none)
  | gid :: rest =>
      match reg.lookup gid with
      | none =>
          let (evs, err) := _setup_commands_loop reg rest
          (SyncEvent.guildNotFound gid :: evs, err)
      | some g =>
          match reg.guildSync g with
          | some msg => ([], some msg)
          | none =>
              let (evs, err) := _setup_commands_loop reg rest
              (SyncEvent.guildSynced gid :: evs, err)

/-- Source `_setup_commands`: runs the per-guild loop over the approved list, then
clears and syncs the global command set; a failure of the global step also
propagates. -/
def _setup_commands (reg : RegistryModel) (approved : List Int) :
    List SyncEvent × Option String :=
  match _setup_commands_loop reg approved with
  | (evs, some msg) => (evs, some msg)
  | (evs, none) =>
      match reg.globalSync with
      | some msg => (evs, some msg)
      | none => (evs ++ [SyncEvent.globalCleared], none)

/-- The registration loop of `_sync_guild_commands`: for each allowed name, a
catalog hit (`bot.tree.get_command`) is added; a miss is skipped silently. -/
def _sync_loop (catalog : String → Option String) : List String → List String
  | [] => []
  | n :: rest =>
      match catalog n with
      | some _ => n :: _sync_loop catalog rest
      | none => _sync_loop catalog rest

/-- Result of syncing one resolved guild: whether its guild-scoped commands
were cleared, the names registered (in order), the catalog lookups performed
(in order), and whether a sync was pushed. -/
structure GuildSyncOutcome where
  cleared : Bool
  registered : List String
  catalogLookups : List String
  syncPushed : Bool
deriving Repr, DecidableEq

/-- Source `_sync_guild_commands` on one resolved guild, as a function of the guild's
allow-list and the registry's global command catalog: always clears first; an
empty (falsy) allow-list syncs immediately without touching the catalog;
otherwise every name is looked up and only the hits are registered, then one
sync is pushed. -/
def _sync_guild_commands (catalog : String → Option String)
    (allowed_commands : List String) : GuildSyncOutcome :=
  if allowed_commands.isEmpty then
    { cleared := true, registered := [], catalogLookups := [], syncPushed := true }
  else
    { cleared := true
      registered := _sync_loop catalog allowed_commands
      catalogLookups := allowed_commands
      syncPushed := true }

end Application

/-! ## Association-list lemmas -/

theorem alistLookup_set_self {α : Type} (l : List (String × α)) (k : String)
    (v : α) : alistLookup (alistSet l k v) k = some v := by
  induction l with
  | nil => simp [alistSet, alistLookup]
  | cons p rest ih =>
      obtain ⟨k0, v0⟩ := p
      by_cases h : k0 = k
      · simp [alistSet, alistLookup, h]
      · simp [alistSet, alistLookup, h, ih]

theorem alistLookup_set_ne {α : Type} (l : List (String × α)) (k k2 : String)
    (v : α) (h : k2 ≠ k) :
    alistLookup (alistSet l k v) k2 = alistLookup l k2 := by
  induction l with
  | nil => simp [alistSet, alistLookup, Ne.symm h]
  | cons p rest ih =>
      obtain ⟨k0, v0⟩ := p
      by_cases h0 : k0 = k
      · subst h0
        simp [alistSet, alistLookup, Ne.symm h]
      · simp only [alistSet, if_neg h0]
        by_cases h2 : k0 = k2
        · simp [alistLookup, h2]
        · simp [alistLookup, h2, ih]

theorem alistSet_set_self {α : Type} (l : List (String × α)) (k : String)
    (v w : α) : alistSet (alistSet l k v) k w = alistSet l k w := by
  induction l with
  | nil => simp [alistSet]
  | cons p rest ih =>
      obtain ⟨k0, v0⟩ := p
      by_cases h : k0 = k
      · simp [alistSet, h]
      · simp [alistSet, h, ih]

theorem mem_keys_alistSet {α : Type} (l : List (String × α)) (k k2 : String)
    (v : α) :
    k2 ∈ (alistSet l k v).map Prod.fst ↔ k2 ∈ l.map Prod.fst ∨ k2 = k := by
  induction l with
  | nil => simp [alistSet]
  | cons p rest ih =>
      obtain ⟨k0, v0⟩ := p
      by_cases h : k0 = k
      · subst h
        by_cases h2 : k2 = k0 <;> simp [alistSet, h2]
      · simp only [alistSet, if_neg h, List.map_cons, List.mem_cons, ih]
        tauto

theorem nodup_keys_alistSet {α : Type} (l : List (String × α)) (k : String)
    (v : α) (h : (l.map Prod.fst).Nodup) :
    ((alistSet l k v).map Prod.fst).Nodup := by
  induction l with
  | nil => simp [alistSet]
  | cons p rest ih =>
      obtain ⟨k0, v0⟩ := p
      simp only [List.map_cons, List.nodup_cons] at h
      by_cases hk : k0 = k
      · subst hk
        simpa [alistSet, List.nodup_cons] using h
      · have hrest := ih h.2
        simp only [alistSet, if_neg hk, List.map_cons, List.nodup_cons]
        refine ⟨?_, hrest⟩
        rw [mem_keys_alistSet]
        rintro (hmem | hrfl)
        · exact h.1 hmem
        · exact hk hrfl

theorem alistLookup_eq_none_iff {α : Type} (l : List (String × α)) (k : String) :
    alistLookup l k = none ↔ k ∉ l.map Prod.fst := by
  induction l with
  | nil => simp [alistLookup]
  | cons p rest ih =>
      obtain ⟨k0, v0⟩ := p
      by_cases h : k0 = k
      · simp [alistLookup, h]
      · simp [alistLookup, h, ih, Ne.symm h]

theorem alistLookup_erase_self {α : Type} (l : List (String × α)) (k : String)
    (h : (l.map Prod.fst).Nodup) : alistLookup (alistErase l k) k = none := by
  induction l with
  | nil => simp [alistErase, alistLookup]
  | cons p rest ih =>
      obtain ⟨k0, v0⟩ := p
      simp only [List.map_cons, List.nodup_cons] at h
      by_cases hk : k0 = k
      · subst hk
        simp only [alistErase, if_pos rfl]
        exact (alistLookup_eq_none_iff rest k0).mpr h.1
      · simp [alistErase, hk, alistLookup, ih h.2]

/-! ## Characterization of a successful update -/

/-- A configuration document of the documented shape: a JSON object whose
`guilds` key, when present, holds an object. -/
def wellFormedConfig : Json → Bool
  | .obj kvs =>
      match alistLookup kvs "guilds" with
      | none => true
      | some (.obj _) => true
      | some _ => false
  | _ => false

/-- The per-guild mapping of a config document: the entries of its `guilds`
object, or empty when the key is absent. -/
def guildsOf (kvs : List (String × Json)) : List (String × Json) :=
  match alistLookup kvs "guilds" with
  | some (.obj g) => g
  | _ => []

/-- On a stored, well-formed document, `update_commands_for_guild` with a list
argument succeeds, appends exactly one backup holding the pre-mutation
document, and rewrites the file with `guilds[guild_id]` replaced. -/
theorem update_commands_spec (s : RepoState) (kvs : List (String × Json))
    (guild_id : String) (cs : List Json)
    (hf : s.file = .stored (.obj kvs))
    (hwf : wellFormedConfig (.obj kvs) = true) :
    CommandConfigRepository.update_commands_for_guild s guild_id (.arr cs) =
      ({ file := .stored (.obj (alistSet kvs "guilds"
            (.obj (alistSet (guildsOf kvs) guild_id (.arr cs))))),
         backups := s.backups ++ [.obj kvs] }, none) := by
  have hbackup : CommandConfigRepository.backup s =
      { file := .stored (.obj kvs), backups := s.backups ++ [.obj kvs] } := by
    simp [CommandConfigRepository.backup, hf]
  unfold CommandConfigRepository.update_commands_for_guild
  rw [hbackup]
  unfold guildsOf
  cases hl : alistLookup kvs "guilds" with
  | none =>
      simp [CommandConfigRepository.updateCore, CommandConfigRepository._read_config,
        Json.isArr, Json.hasMember, hl, Json.setItem, Json.getItem,
        alistLookup_set_self, bind, Except.bind, pure, Except.pure,
        alistSet_set_self, CommandConfigRepository._write_config]
  | some g =>
      cases g with
      | obj gkvs =>
          simp [CommandConfigRepository.updateCore, CommandConfigRepository._read_config,
            Json.isArr, Json.hasMember, hl, Json.setItem, Json.getItem,
            bind, Except.bind, pure, Except.pure,
            CommandConfigRepository._write_config]
      | null => simp [wellFormedConfig, hl] at hwf
      | bool b => simp [wellFormedConfig, hl] at hwf
      | num n => simp [wellFormedConfig, hl] at hwf
      | str t => simp [wellFormedConfig, hl] at hwf
      | arr es => simp [wellFormedConfig, hl] at hwf

/-! ## Claim C2: cache TTL semantics -/

/-- C2: for every key, value and non-negative ttl, after `set key v ttl` at
time `t0`, a `get key` at time `t` returns `v` when `t < t0 + ttl`, and
otherwise returns `None` and removes the entry from the cache as a side
effect (so with `ttl = 0` the very next `get` already returns `None`).
The hypothesis on key uniqueness is the Python dict invariant. -/
theorem claim_c2_cache_ttl (cache : List (String × CacheEntry)) (key : String)
    (v : Json) (ttl t0 t : Int)
    (hnd : (cache.map Prod.fst).Nodup) (_httl : 0 ≤ ttl) :
    (t < t0 + ttl →
      CacheService.get (CacheService.set cache key v ttl t0) key t
        = (some v, CacheService.set cache key v ttl t0)) ∧
    (t0 + ttl ≤ t →
      (CacheService.get (CacheService.set cache key v ttl t0) key t).1 = none ∧
      alistLookup
        (CacheService.get (CacheService.set cache key v ttl t0) key t).2 key
        = none) := by
  constructor
  · intro hlt
    unfold CacheService.get CacheService.set
    rw [alistLookup_set_self]
    simp only [if_neg (not_le.mpr hlt)]
  · intro hle
    unfold CacheService.get CacheService.set
    rw [alistLookup_set_self]
    simp only [if_pos hle]
    refine ⟨by trivial, ?_⟩
    exact alistLookup_erase_self _ key
      (nodup_keys_alistSet cache key { value := v, expires := t0 + ttl } hnd)

/-- C2 witness: a live read at `ttl = 5` two ticks after the set returns the
value; with `ttl = 0` the very next read is already absent. -/
theorem claim_c2_cache_ttl_witness :
    CacheService.get (CacheService.set [] "k" (Json.num 1) 5 10) "k" 12
      = (some (Json.num 1), CacheService.set [] "k" (Json.num 1) 5 10) ∧
    (CacheService.get (CacheService.set [] "k" (Json.num 1) 0 10) "k" 10).1
      = none := by
  constructor
  · exact (claim_c2_cache_ttl [] "k" (.num 1) 5 10 12 (by simp)
      (by norm_num)).1 (by norm_num)
  · exact ((claim_c2_cache_ttl [] "k" (.num 1) 0 10 10 (by simp)
      le_rfl).2 le_rfl).1

/-! ## Claim C6: restore on bad backups -/

/-- C6 counterexample: a backup file holding the valid JSON document `5`
parses to a structure lacking a `guilds` mapping, yet `restore` does not
return `false`: the membership test `"guilds" not in config` raises an
uncaught `TypeError` (the `except` clause only catches `JSONDecodeError`,
`ConfigurationError` and `IOError`), so the call throws, contradicting the
claim. -/
theorem claim_c6_counterexample :
    (CommandConfigRepository.restore ⟨.stored (.obj [("guilds", .obj [])]), []⟩
        (.stored (.num 5))).2
      = .error .typeError :=
  rfl

/-- C6 amended: a missing backup location propagates a not-found error; a
backup whose contents fail to parse returns `false` with the primary config
untouched; a backup parsing to a JSON object that lacks a `guilds` key, or
whose `guilds` value is not an object, likewise returns `false` and leaves
the primary unmodified.  (A backup parsing to a non-container value such as
a number raises an uncaught type error instead, per the counterexample.) -/
theorem claim_c6_restore (s : RepoState) (kvs : List (String × Json)) :
    CommandConfigRepository.restore s .missing = (s, .error .fileNotFoundError) ∧
    CommandConfigRepository.restore s .garbage = (s, .ok false) ∧
    (alistLookup kvs "guilds" = none →
      CommandConfigRepository.restore s (.stored (.obj kvs)) = (s, .ok false)) ∧
    (∀ j, alistLookup kvs "guilds" = some j → j.isObj = false →
      CommandConfigRepository.restore s (.stored (.obj kvs)) = (s, .ok false)) := by
  refine ⟨rfl, rfl, ?_, ?_⟩
  · intro h
    simp [CommandConfigRepository.restore, Json.hasMember, h]
  · intro j hj hobj
    simp [CommandConfigRepository.restore, Json.hasMember, hj, Json.dictGet, hobj]

/-- C6 witness: concrete bad backups — an object without a `guilds` key, and
one whose `guilds` value is a number — both return `false` and leave the
primary state unchanged. -/
theorem claim_c6_restore_witness :
    CommandConfigRepository.restore ⟨.stored (.obj []), []⟩
        (.stored (.obj [("other", .num 1)]))
      = (⟨.stored (.obj []), []⟩, .ok false) ∧
    CommandConfigRepository.restore ⟨.stored (.obj []), []⟩
        (.stored (.obj [("guilds", .num 1)]))
      = (⟨.stored (.obj []), []⟩, .ok false) := by
  constructor
  · exact (claim_c6_restore ⟨.stored (.obj []), []⟩ [("other", .num 1)]).2.2.1 rfl
  · exact (claim_c6_restore ⟨.stored (.obj []), []⟩
      [("guilds", .num 1)]).2.2.2 (.num 1) rfl rfl

/-! ## Claim C7: backup-before-mutation semantics -/

/-- C7: a successful `update_commands_for_guild` appends exactly one backup
snapshot whose content is the pre-mutation document; after two sequential
updates for the same guild the second backup holds the state produced by the
first update; and the `backup` routine swallows its own failures — on an
unreadable or missing primary file it leaves the state unchanged and raises
nothing (it is a total function of the state). -/
theorem claim_c7_backup (s : RepoState) (kvs : List (String × Json))
    (gid : String) (cs1 cs2 : List Json)
    (hf : s.file = .stored (.obj kvs))
    (hwf : wellFormedConfig (.obj kvs) = true) :
    (CommandConfigRepository.update_commands_for_guild s gid (.arr cs1)).1.backups
      = s.backups ++ [.obj kvs] ∧
    (CommandConfigRepository.update_commands_for_guild
        (CommandConfigRepository.update_commands_for_guild s gid (.arr cs1)).1
        gid (.arr cs2)).1.backups
      = (CommandConfigRepository.update_commands_for_guild s gid
          (.arr cs1)).1.backups
        ++ [.obj (alistSet kvs "guilds"
              (.obj (alistSet (guildsOf kvs) gid (.arr cs1))))] ∧
    (∀ b, CommandConfigRepository.backup ⟨.garbage, b⟩ = ⟨.garbage, b⟩) ∧
    (∀ b, CommandConfigRepository.backup ⟨.missing, b⟩ = ⟨.missing, b⟩) := by
  have h1 := update_commands_spec s kvs gid cs1 hf hwf
  have hwf2 : wellFormedConfig (.obj (alistSet kvs "guilds"
      (.obj (alistSet (guildsOf kvs) gid (.arr cs1))))) = true := by
    simp [wellFormedConfig, alistLookup_set_self]
  have h2 := update_commands_spec
    (CommandConfigRepository.update_commands_for_guild s gid (.arr cs1)).1
    (alistSet kvs "guilds" (.obj (alistSet (guildsOf kvs) gid (.arr cs1))))
    gid cs2 (by rw [h1]) hwf2
  refine ⟨by rw [h1], by rw [h2, h1], fun b => rfl, fun b => rfl⟩

/-- C7 witness: two sequential updates on a concrete state produce exactly
the two expected snapshots, the second being the post-first-update state. -/
theorem claim_c7_backup_witness :
    (CommandConfigRepository.update_commands_for_guild
        ⟨.stored (.obj [("guilds", .obj [])]), []⟩ "g"
        (.arr [.str "a"])).1.backups
      = [] ++ [.obj [("guilds", .obj [])]] ∧
    (CommandConfigRepository.update_commands_for_guild
        (CommandConfigRepository.update_commands_for_guild
          ⟨.stored (.obj [("guilds", .obj [])]), []⟩ "g" (.arr [.str "a"])).1
        "g" (.arr [.str "b"])).1.backups
      = (CommandConfigRepository.update_commands_for_guild
          ⟨.stored (.obj [("guilds", .obj [])]), []⟩ "g"
          (.arr [.str "a"])).1.backups
        ++ [.obj (alistSet [("guilds", .obj [])] "guilds"
              (.obj (alistSet (guildsOf [("guilds", .obj [])]) "g"
                (.arr [.str "a"]))))] := by
  have h := claim_c7_backup ⟨.stored (.obj [("guilds", .obj [])]), []⟩
    [("guilds", .obj [])] "g" [.str "a"] [.str "b"] rfl rfl
  exact ⟨h.1, h.2.1⟩

/-! ## Claim C8: missing guild reads -/

/-- C8 counterexample: the claim quantifies over every state of the backing
file, but on an unparseable backing file `get_commands_for_guild` raises
`ConfigurationError` (from `_read_config`) instead of returning an empty
sequence. -/
theorem claim_c8_counterexample :
    CommandConfigRepository.get_commands_for_guild .garbage "g"
      = .error (.configurationError "Failed to read or parse config") :=
  rfl

/-- C8 amended: whenever the backing file parses to a well-formed
configuration object, `get_commands_for_guild` on a guild id absent from the
`guilds` mapping returns the empty sequence and no error; a missing or
unparseable backing file instead raises `ConfigurationError`. -/
theorem claim_c8_missing_guild (kvs : List (String × Json)) (gid : String)
    (hwf : wellFormedConfig (.obj kvs) = true)
    (habs : ∀ g, alistLookup kvs "guilds" = some (.obj g) →
      alistLookup g gid = none) :
    CommandConfigRepository.get_commands_for_guild (.stored (.obj kvs)) gid
      = .ok (.arr []) := by
  cases hl : alistLookup kvs "guilds" with
  | none =>
      simp [CommandConfigRepository.get_commands_for_guild,
        CommandConfigRepository.get_all, CommandConfigRepository._read_config,
        Json.dictGet, hl, bind, Except.bind, alistLookup]
  | some g =>
      cases g with
      | obj gkvs =>
          simp [CommandConfigRepository.get_commands_for_guild,
            CommandConfigRepository.get_all, CommandConfigRepository._read_config,
            Json.dictGet, hl, bind, Except.bind, habs gkvs hl]
      | null => simp [wellFormedConfig, hl] at hwf
      | bool b => simp [wellFormedConfig, hl] at hwf
      | num n => simp [wellFormedConfig, hl] at hwf
      | str t => simp [wellFormedConfig, hl] at hwf
      | arr es => simp [wellFormedConfig, hl] at hwf

/-- C8 witness: a guild id with no entry reads back as the empty list, both
when the `guilds` mapping is empty and when it holds other guilds. -/
theorem claim_c8_missing_guild_witness :
    CommandConfigRepository.get_commands_for_guild
        (.stored (.obj [("guilds", .obj [])])) "222" = .ok (.arr []) ∧
    CommandConfigRepository.get_commands_for_guild
        (.stored (.obj [("guilds", .obj [("111", .arr [.str "ping"])])])) "222"
      = .ok (.arr []) := by
  constructor
  · exact claim_c8_missing_guild [("guilds", .obj [])] "222" rfl
      (fun g hg => by cases hg; rfl)
  · exact claim_c8_missing_guild [("guilds", .obj [("111", .arr [.str "ping"])])]
      "222" rfl (fun g hg => by cases hg; rfl)

/-! ## Claim C9: missing environment variables -/

/-- C9 counterexample: with every required variable present but `TOKEN` set
to the empty string, no variable is absent, yet construction still raises
the missing-configuration error — the source tests truthiness
(`not os.getenv(var)`), so a present-but-empty variable counts as missing,
contradicting the claim's "if none are missing, construction does not raise
for this reason". -/
theorem claim_c9_counterexample :
    ((fun v => if v = "TOKEN" then some "" else some "1")
        "APPROVED_GUILDS" : Option String).isSome = true ∧
    ((fun v => if v = "TOKEN" then some "" else some "1")
        "TOKEN" : Option String).isSome = true ∧
    ((fun v => if v = "TOKEN" then some "" else some "1")
        "DB" : Option String).isSome = true ∧
    ConfigManager._setup_env_vars (fun v => if v = "TOKEN" then some "" else some "1")
      = .error "Missing required environment variables: TOKEN" :=
  ⟨rfl, rfl, rfl, rfl⟩

/-- C9 amended: construction fails with the missing-configuration error
exactly when some required variable is unset or set to the empty string, and
the error message then lists every such variable at once (joined in the
required-list order), not only the first; when every required variable has a
non-empty value, construction does not raise for this reason. -/
theorem claim_c9_missing (env : String → Option String) :
    (ConfigManager.required_env_vars.filter (envMissing env) = [] →
      ConfigManager._setup_env_vars env = .ok ()) ∧
    (ConfigManager.required_env_vars.filter (envMissing env) ≠ [] →
      ConfigManager._setup_env_vars env
        = .error ("Missing required environment variables: "
            ++ String.intercalate ", "
                (ConfigManager.required_env_vars.filter (envMissing env)))) ∧
    (∀ v, v ∈ ConfigManager.required_env_vars.filter (envMissing env) ↔
      (v ∈ ConfigManager.required_env_vars ∧ envMissing env v = true)) := by
  refine ⟨?_, ?_, ?_⟩
  · intro h
    simp [ConfigManager._setup_env_vars, load_and_validate_env_vars, h]
  · intro h
    cases hf : ConfigManager.required_env_vars.filter (envMissing env) with
    | nil => exact absurd hf h
    | cons a as =>
        simp [ConfigManager._setup_env_vars, load_and_validate_env_vars, hf]
  · intro v
    exact List.mem_filter

/-- C9 witness: an environment with all variables set and non-empty passes;
one with `TOKEN` unset fails naming `TOKEN`. -/
theorem claim_c9_missing_witness :
    ConfigManager._setup_env_vars (fun _ => some "x") = .ok () ∧
    ConfigManager._setup_env_vars
        (fun v => if v = "TOKEN" then none else some "x")
      = .error "Missing required environment variables: TOKEN" := by
  constructor
  · exact (claim_c9_missing (fun _ => some "x")).1 rfl
  · exact ((claim_c9_missing (fun v => if v = "TOKEN" then none else some "x")).2.1
      (by decide)).trans rfl

/-! ## Claim C10: frame property of the update -/

/-- C10: a successful `update_commands_for_guild` rewrites the document with
only `guilds[gid]` replaced: every other top-level key of the backing
document keeps its value (and position), and every other guild entry keeps
its value, so unknown top-level keys are preserved verbatim on the
rewrite. -/
theorem claim_c10_frame (s : RepoState) (kvs : List (String × Json))
    (gid : String) (cs : List Json)
    (hf : s.file = .stored (.obj kvs))
    (hwf : wellFormedConfig (.obj kvs) = true) :
    (CommandConfigRepository.update_commands_for_guild s gid (.arr cs)).2
      = none ∧
    (CommandConfigRepository.update_commands_for_guild s gid (.arr cs)).1.file
      = .stored (.obj (alistSet kvs "guilds"
          (.obj (alistSet (guildsOf kvs) gid (.arr cs))))) ∧
    (∀ k, k ≠ "guilds" →
      alistLookup (alistSet kvs "guilds"
          (.obj (alistSet (guildsOf kvs) gid (.arr cs)))) k
        = alistLookup kvs k) ∧
    (∀ g2, g2 ≠ gid →
      alistLookup (alistSet (guildsOf kvs) gid (.arr cs)) g2
        = alistLookup (guildsOf kvs) g2) := by
  have h := update_commands_spec s kvs gid cs hf hwf
  refine ⟨by rw [h], by rw [h], ?_, ?_⟩
  · intro k hk
    exact alistLookup_set_ne kvs "guilds" k _ hk
  · intro g2 hg
    exact alistLookup_set_ne (guildsOf kvs) gid g2 _ hg

/-- C10 witness: updating guild `"111"` preserves the unrelated top-level
key `extra` and the other guild `"222"` on a concrete document. -/
theorem claim_c10_frame_witness :
    (CommandConfigRepository.update_commands_for_guild
        ⟨.stored (.obj [("guilds", .obj [("222", .arr [])]), ("extra", .num 7)]),
         []⟩ "111" (.arr [.str "ping"])).2 = none ∧
    alistLookup (alistSet
        [("guilds", Json.obj [("222", Json.arr [])]), ("extra", Json.num 7)]
        "guilds" (Json.obj (alistSet
          (guildsOf [("guilds", Json.obj [("222", Json.arr [])]),
            ("extra", Json.num 7)])
          "111" (Json.arr [Json.str "ping"])))) "extra"
      = alistLookup
          [("guilds", Json.obj [("222", Json.arr [])]), ("extra", Json.num 7)]
          "extra" ∧
    alistLookup (alistSet
        (guildsOf [("guilds", Json.obj [("222", Json.arr [])]),
          ("extra", Json.num 7)])
        "111" (Json.arr [Json.str "ping"])) "222"
      = alistLookup
          (guildsOf [("guilds", Json.obj [("222", Json.arr [])]),
            ("extra", Json.num 7)])
          "222" := by
  have h := claim_c10_frame
    ⟨.stored (.obj [("guilds", .obj [("222", .arr [])]), ("extra", .num 7)]), []⟩
    [("guilds", .obj [("222", .arr [])]), ("extra", .num 7)]
    "111" [.str "ping"] rfl rfl
  exact ⟨h.1, h.2.2.1 "extra" (by decide), h.2.2.2 "222" (by decide)⟩

/-! ## Claim C5: syncing one resolved guild -/

/-- The registration loop keeps exactly the allow-list names that the catalog
defines, in list order. -/
theorem sync_loop_eq_filter (catalog : String → Option String)
    (names : List String) :
    Application._sync_loop catalog names
      = names.filter (fun n => (catalog n).isSome) := by
  induction names with
  | nil => rfl
  | cons n rest ih =>
      cases h : catalog n with
      | none => simp [Application._sync_loop, h, List.filter, ih]
      | some d => simp [Application._sync_loop, h, List.filter, ih]

/-- C5: when synchronizing one resolved guild, an empty allow-list clears the
guild-scoped commands and pushes a sync of zero commands without consulting
the catalog at all; a non-empty allow-list is walked in list order, exactly
the names with a catalog definition are registered, names absent from the
catalog are skipped with no error, and one sync is pushed. -/
theorem claim_c5_guild_sync (catalog : String → Option String)
    (allowed : List String) :
    (allowed = [] →
      Application._sync_guild_commands catalog allowed
        = { cleared := true, registered := [], catalogLookups := [],
            syncPushed := true }) ∧
    (allowed ≠ [] →
      Application._sync_guild_commands catalog allowed
        = { cleared := true,
            registered := allowed.filter (fun n => (catalog n).isSome),
            catalogLookups := allowed, syncPushed := true }) := by
  constructor
  · intro h
    subst h
    rfl
  · intro h
    cases allowed with
    | nil => exact absurd rfl h
    | cons n rest =>
        simp [Application._sync_guild_commands, List.isEmpty, sync_loop_eq_filter]

/-- C5 witness: the spec's scenarios — guild `"111"` allows `["ping",
"stats"]` against a catalog defining only `"ping"`, registering exactly
`["ping"]` with no error; guild `"222"` has an empty allow-list and syncs
zero commands without any catalog lookup. -/
theorem claim_c5_guild_sync_witness :
    Application._sync_guild_commands
        (fun n => if n = "ping" then some "ping" else none) ["ping", "stats"]
      = { cleared := true, registered := ["ping"],
          catalogLookups := ["ping", "stats"], syncPushed := true } ∧
    Application._sync_guild_commands
        (fun n => if n = "ping" then some "ping" else none) []
      = { cleared := true, registered := [], catalogLookups := [],
          syncPushed := true } := by
  constructor
  · exact ((claim_c5_guild_sync (fun n => if n = "ping" then some "ping" else none)
      ["ping", "stats"]).2 (by simp)).trans rfl
  · exact (claim_c5_guild_sync (fun n => if n = "ping" then some "ping" else none)
      []).1 rfl

/-! ## Claim C1: failure semantics of the full synchronization run -/

/-- C1 counterexample: with both approved guilds resolvable, a registry
failure while syncing the first guild makes the whole run abort with that
error — the second approved guild is never attempted (empty event trace) and
the error propagates even though the global step never ran, contradicting
the claim that per-guild registry failures are logged and skipped with only
the final global-clear failure propagating. -/
theorem claim_c1_counterexample :
    Application._setup_commands
        { lookup := fun g => some g,
          guildSync := fun g => if g = 1 then some "registry failure" else none,
          globalSync := none }
        [1, 2]
      = ([], some "registry failure") :=
  rfl

/-- Under an everywhere-successful per-guild sync, the per-guild loop never
produces an error. -/
theorem setup_loop_no_error (reg : RegistryModel)
    (happy : ∀ g h2, reg.lookup g = some h2 → reg.guildSync h2 = none)
    (approved : List Int) :
    (Application._setup_commands_loop reg approved).2 = none := by
  induction approved with
  | nil => rfl
  | cons gid rest ih =>
      cases hl : reg.lookup gid with
      | none => simp [Application._setup_commands_loop, hl, ih]
      | some h2 => simp [Application._setup_commands_loop, hl, happy gid h2 hl, ih]

/-- C1 amended: during a full synchronization run, a guild id that does not
resolve to a live guild is logged and skipped, and the run continues with
the remaining approved guilds; but a failure while syncing a resolved guild
is not caught — it propagates immediately and aborts the rest of the run;
when every per-guild sync succeeds, the run's outcome is exactly that of the
final global-clear step, whose failure propagates. -/
theorem claim_c1_failure_semantics (reg : RegistryModel) (gid : Int)
    (rest approved : List Int) :
    (reg.lookup gid = none →
      Application._setup_commands reg (gid :: rest)
        = (SyncEvent.guildNotFound gid
            :: (Application._setup_commands reg rest).1,
           (Application._setup_commands reg rest).2)) ∧
    (∀ h2 msg, reg.lookup gid = some h2 → reg.guildSync h2 = some msg →
      Application._setup_commands reg (gid :: rest) = ([], some msg)) ∧
    ((∀ g h2, reg.lookup g = some h2 → reg.guildSync h2 = none) →
      (Application._setup_commands reg approved).2 = reg.globalSync) := by
  refine ⟨?_, ?_, ?_⟩
  · intro h
    unfold Application._setup_commands
    simp only [Application._setup_commands_loop, h]
    cases hl : Application._setup_commands_loop reg rest with
    | mk evs err =>
        cases err with
        | some m => simp
        | none => cases reg.globalSync <;> simp
  · intro h2 msg hl hs
    unfold Application._setup_commands
    simp [Application._setup_commands_loop, hl, hs]
  · intro happy
    unfold Application._setup_commands
    cases hl : Application._setup_commands_loop reg approved with
    | mk evs err =>
        have hne := setup_loop_no_error reg happy approved
        rw [hl] at hne
        simp only at hne
        subst hne
        cases reg.globalSync <;> simp

/-- C1 witness: a run where guild `2` cannot be resolved skips it and
continues, and a run whose per-guild syncs all succeed surfaces exactly the
global step's failure. -/
theorem claim_c1_failure_semantics_witness :
    Application._setup_commands
        { lookup := fun g => if g = 2 then none else some g,
          guildSync := fun _ => none,
          globalSync := some "global failure" } [2, 3]
      = (SyncEvent.guildNotFound 2
          :: (Application._setup_commands
              { lookup := fun g => if g = 2 then none else some g,
                guildSync := fun _ => none,
                globalSync := some "global failure" } [3]).1,
         (Application._setup_commands
            { lookup := fun g => if g = 2 then none else some g,
              guildSync := fun _ => none,
              globalSync := some "global failure" } [3]).2) ∧
    (Application._setup_commands
        { lookup := fun g => if g = 2 then none else some g,
          guildSync := fun _ => none,
          globalSync := some "global failure" } [2, 3]).2
      = some "global failure" := by
  constructor
  · exact (claim_c1_failure_semantics
      { lookup := fun g => if g = 2 then none else some g,
        guildSync := fun _ => none, globalSync := some "global failure" }
      2 [3] []).1 rfl
  · exact (claim_c1_failure_semantics
      { lookup := fun g => if g = 2 then none else some g,
        guildSync := fun _ => none, globalSync := some "global failure" }
      0 [] [2, 3]).2.2 (fun g h2 _ => rfl)

/-! ## Claim C3: update/get round trip -/

/-- C3: on a stored well-formed configuration, `update_commands_for_guild g
cmds` followed by `get_commands_for_guild g` with no intervening mutation
succeeds and returns exactly `cmds`, same elements in the same order. -/
theorem claim_c3_roundtrip (s : RepoState) (kvs : List (String × Json))
    (gid : String) (cmds : List String)
    (hf : s.file = .stored (.obj kvs))
    (hwf : wellFormedConfig (.obj kvs) = true) :
    (CommandConfigRepository.update_commands_for_guild s gid
        (.arr (cmds.map Json.str))).2 = none ∧
    CommandConfigRepository.get_commands_for_guild
        (CommandConfigRepository.update_commands_for_guild s gid
          (.arr (cmds.map Json.str))).1.file gid
      = .ok (.arr (cmds.map Json.str)) := by
  rw [update_commands_spec s kvs gid (cmds.map Json.str) hf hwf]
  refine ⟨rfl, ?_⟩
  simp [CommandConfigRepository.get_commands_for_guild,
    CommandConfigRepository.get_all, CommandConfigRepository._read_config,
    Json.dictGet, alistLookup_set_self, bind, Except.bind]

/-- C3 witness: round trip on a concrete repository state. -/
theorem claim_c3_roundtrip_witness :
    CommandConfigRepository.get_commands_for_guild
        (CommandConfigRepository.update_commands_for_guild
          ⟨.stored (.obj [("guilds", .obj [])]), []⟩ "111"
          (.arr (["ping", "stats"].map Json.str))).1.file "111"
      = .ok (.arr (["ping", "stats"].map Json.str)) :=
  (claim_c3_roundtrip ⟨.stored (.obj [("guilds", .obj [])]), []⟩
    [("guilds", .obj [])] "111" ["ping", "stats"] rfl rfl).2

/-! ## Claim C4: argument validation of the update -/

/-- C4 counterexample: the source only checks `isinstance(commands, list)`,
so a list containing a non-string element is accepted: the update succeeds
(no `InvalidArgument`) and the non-string list is stored verbatim,
contradicting the claim that every argument that is not a sequence of
strings is rejected. -/
theorem claim_c4_counterexample :
    (CommandConfigRepository.update_commands_for_guild
        ⟨.stored (.obj [("guilds", .obj [])]), []⟩ "g" (.arr [.num 1])).2
      = none ∧
    CommandConfigRepository.get_commands_for_guild
        (CommandConfigRepository.update_commands_for_guild
          ⟨.stored (.obj [("guilds", .obj [])]), []⟩ "g" (.arr [.num 1])).1.file
        "g"
      = .ok (.arr [.num 1]) :=
  ⟨rfl, rfl⟩

/-- C4 amended: `update_commands_for_guild` validates only that `commands`
is a list; every non-list argument fails with the `InvalidArgument` error
without modifying the stored configuration (a list containing non-string
elements is accepted). -/
theorem claim_c4_validation (s : RepoState) (gid : String) (c : Json)
    (h : c.isArr = false) :
    CommandConfigRepository.update_commands_for_guild s gid c
      = (s, some (.configurationError "Invalid commands list: must be a list.")) := by
  unfold CommandConfigRepository.update_commands_for_guild
  simp [h]

/-- C4 witness: a non-list argument is rejected and the state is unchanged. -/
theorem claim_c4_validation_witness :
    CommandConfigRepository.update_commands_for_guild
        ⟨.stored (.obj [("guilds", .obj [])]), []⟩ "g" (.num 3)
      = (⟨.stored (.obj [("guilds", .obj [])]), []⟩,
         some (.configurationError "Invalid commands list: must be a list.")) :=
  claim_c4_validation ⟨.stored (.obj [("guilds", .obj [])]), []⟩ "g" (.num 3) rfl
